import Mathlib

/-!
# Verification of the ScriptEngine host (libraries/script-engine/src/ScriptEngine.cpp)

A shallow embedding of the script-host run loop, the timer subsystem, the
per-destination audio sequence tracker, the reentrant `evaluate` counter, and
the registry-wide `stopAllScripts` sweep, together with proofs of the spec's
claims about them.

Conventions:
- `QTimer*` handles and node UUIDs are modelled as `Nat` identities.
- `QHash` maps are modelled as association lists with `QHash`-faithful
  operations (`value` returning a default-constructed element when the key is
  absent, `operator[]` default-inserting 0, `remove` deleting the key).
- C++ `int` arithmetic is modelled with `Int` (no overflow occurs in the
  quantities involved); the 16-bit sequence counter wraps explicitly mod 2^16.
-/

namespace ScriptEngineModel

/-- Model of a `QScriptValue` as stored in `_timerFunctionMap`: a validity flag
(`QScriptValue().isValid() = false` for the default-constructed value returned
by `QHash::value` on a missing key) plus an identity for the script function. -/
structure QScriptValueM where
  valid : Bool
  fnId : Nat
  deriving DecidableEq, Repr

/-- The default-constructed `QScriptValue` (invalid). -/
def QScriptValueM.invalidValue : QScriptValueM := ⟨false, 0⟩

/-- Model of a `QTimer`: its identity (the pointer), its `singleShot` property
and its current `isActive` state as observed inside `timerFired`. -/
structure QTimerM where
  id : Nat
  singleShot : Bool
  timerActive : Bool
  deriving DecidableEq, Repr

/-- The `_timerFunctionMap : QHash<QTimer*, QScriptValue>`. -/
abbrev TimerFunctionMap := List (Nat × QScriptValueM)

/-- `QHash::value(key)`: the stored value, or a default-constructed (invalid)
`QScriptValue` when the key is absent. -/
def tmValue (m : TimerFunctionMap) (t : Nat) : QScriptValueM :=
  match m.find? (fun e => e.1 = t) with
  | some e => e.2
  | none => QScriptValueM.invalidValue

/-- `QHash::contains(key)`. -/
def tmContains (m : TimerFunctionMap) (t : Nat) : Bool :=
  (m.find? (fun e => e.1 = t)).isSome

/-- `QHash::remove(key)`. -/
def tmRemove (m : TimerFunctionMap) (t : Nat) : TimerFunctionMap :=
  m.filter (fun e => e.1 ≠ t)

/-- `QHash::insert(key, value)` (unique keys). -/
def tmInsert (m : TimerFunctionMap) (t : Nat) (v : QScriptValueM) : TimerFunctionMap :=
  (t, v) :: tmRemove m t

/-- `ScriptEngine::timerFired()`: reads the calling timer's function out of the
map, removes (and deletes) the timer when it is no longer active — a fired
single-shot `QTimer` has auto-stopped, so `isActive()` is false — and then
calls the function iff it is valid.  The returned pair is (map state at the
moment the callback is invoked, callback invoked if any). -/
def timerFired (m : TimerFunctionMap) (callingTimer : QTimerM) :
    TimerFunctionMap × Option QScriptValueM :=
  let timerFunction := tmValue m callingTimer.id
  let m2 := if ¬ callingTimer.timerActive then tmRemove m callingTimer.id else m
  (m2, if timerFunction.valid then some timerFunction else none)

/-- Timer-owning state of one engine: the timer map plus a fresh-handle
counter standing in for `new QTimer(this)` allocation. -/
structure EngineTimers where
  timerFunctionMap : TimerFunctionMap
  nextTimerId : Nat
  deriving DecidableEq, Repr

/-- `ScriptEngine::setupTimerWithInterval`: create the timer, add it to the
map, start it; returns the new handle. -/
def setupTimerWithInterval (st : EngineTimers) (function : QScriptValueM)
    (_intervalMS : Int) (_isSingleShot : Bool) : EngineTimers × Nat :=
  let newTimer := st.nextTimerId
  ({ timerFunctionMap := tmInsert st.timerFunctionMap newTimer function,
     nextTimerId := st.nextTimerId + 1 }, newTimer)

/-- `ScriptEngine::setInterval`: bails with no handle while
`_stoppingAllScripts`, otherwise creates a repeating timer. -/
def setInterval (stoppingAllScripts : Bool) (st : EngineTimers)
    (function : QScriptValueM) (intervalMS : Int) : EngineTimers × Option Nat :=
  if stoppingAllScripts then
    (st, none)
  else
    let (st2, t) := setupTimerWithInterval st function intervalMS false
    (st2, some t)

/-- `ScriptEngine::setTimeout`: bails with no handle while
`_stoppingAllScripts`, otherwise creates a single-shot timer. -/
def setTimeout (stoppingAllScripts : Bool) (st : EngineTimers)
    (function : QScriptValueM) (timeoutMS : Int) : EngineTimers × Option Nat :=
  if stoppingAllScripts then
    (st, none)
  else
    let (st2, t) := setupTimerWithInterval st function timeoutMS true
    (st2, some t)

/-- `ScriptEngine::stopTimer`: stop, remove and delete the timer only when it
is present in the map; otherwise do nothing. -/
def stopTimer (st : EngineTimers) (timer : Nat) : EngineTimers :=
  if tmContains st.timerFunctionMap timer then
    { st with timerFunctionMap := tmRemove st.timerFunctionMap timer }
  else
    st

/-- `_outgoingScriptAudioSequenceNumbers : QHash<QUuid, quint16>`. -/
abbrev SequenceNumberMap := List (Nat × Nat)

/-- Association-list lookup for the sequence map. -/
def seqFind (m : SequenceNumberMap) (u : Nat) : Option Nat :=
  match m.find? (fun e => e.1 = u) with
  | some e => some e.2
  | none => none

/-- `QHash::insert` for the sequence map (unique keys). -/
def seqInsert (m : SequenceNumberMap) (u : Nat) (v : Nat) : SequenceNumberMap :=
  (u, v) :: m.filter (fun e => e.1 ≠ u)

/-- `quint16 sequence = _outgoingScriptAudioSequenceNumbers[node->getUUID()]++;`
`QHash::operator[]` default-constructs the counter to 0 when the node is new;
the packed value is the pre-increment counter and the stored value wraps
modulo 2^16. -/
def packSequenceNumber (m : SequenceNumberMap) (u : Nat) : Nat × SequenceNumberMap :=
  let sequence := (seqFind m u).getD 0
  (sequence, seqInsert m u ((sequence + 1) % 65536))

/-- `ScriptEngine::nodeKilled`: drop the disconnected node's counter entry. -/
def nodeKilled (m : SequenceNumberMap) (u : Nat) : SequenceNumberMap :=
  m.filter (fun e => e.1 ≠ u)

/-! ## Reentrant `evaluate` and the `_evaluatesPending` counter

`QScriptValue ScriptEngine::evaluate(program, fileName, lineNumber)` bails
early (no counter change, no signal) when `_stoppingAllScripts` is set;
otherwise it increments `_evaluatesPending`, delegates to
`QScriptEngine::evaluate` — during which any number of reentrant calls to
`ScriptEngine::evaluate` may run to completion (e.g. `debugPrint`, or a
synchronous `include`) — decrements `_evaluatesPending`, and emits
`evaluationFinished(result, hasUncaughtException())`.

A completed call is therefore a tree: the flag value it observed at entry,
the uncaught-exception state at its exit, and the list of reentrant calls
nested inside its interpreter step, in order. -/

/-- One completed (possibly reentrant) call to `ScriptEngine::evaluate`. -/
inductive EvalCall where
  | node (stoppingAllAtEntry : Bool) (hadUncaughtException : Bool)
         (children : List EvalCall)
  deriving Repr

/-- Signals emitted by `evaluate` that the registry's stop-all sweep and the
host application listen to. -/
inductive EvalEvent where
  | evaluationFinished (hadUncaughtException : Bool)
  deriving DecidableEq, Repr

mutual

/-- Run one `ScriptEngine::evaluate` call on the current `_evaluatesPending`
counter; returns the counter at return and the signals emitted by the call
and everything nested in it, in emission order. -/
def runEvaluate : EvalCall → Int → Int × List EvalEvent
  | .node stoppingAll hadErr children, evaluatesPending =>
    if stoppingAll then
      (evaluatesPending, [])
    else
      let r := runEvaluateList children (evaluatesPending + 1)
      (r.1 - 1, r.2 ++ [EvalEvent.evaluationFinished hadErr])

/-- Run a sequence of reentrant calls left to right. -/
def runEvaluateList : List EvalCall → Int → Int × List EvalEvent
  | [], p => (p, [])
  | c :: cs, p =>
    let r1 := runEvaluate c p
    let r2 := runEvaluateList cs r1.1
    (r2.1, r1.2 ++ r2.2)

end

mutual

/-- The minimum value `_evaluatesPending` takes at any point during a call
(its value at entry included). -/
def minPending : EvalCall → Int → Int
  | .node stoppingAll _ children, p =>
    if stoppingAll then p
    else min p (minPendingList children (p + 1))

/-- The minimum counter value over a sequence of reentrant calls (the value
before the first call included). -/
def minPendingList : List EvalCall → Int → Int
  | [], p => p
  | c :: cs, p => min (minPending c p) (minPendingList cs (runEvaluate c p).1)

end

/-! ## The per-frame avatar audio section of `ScriptEngine::run`

Lines 492–589: when the host is an avatar host, each loop iteration always
broadcasts an avatar-state packet, and — when listening to the input audio
stream or a sound buffer is queued — additionally builds one audio packet.
`SCRIPT_AUDIO_BUFFER_SAMPLES` is a per-tick budget computed from the tick
interval and the audio sample rate (its constants live in headers outside
this file), so the section is parametrised on it;
`SCRIPT_AUDIO_BUFFER_BYTES = SCRIPT_AUDIO_BUFFER_SAMPLES * sizeof(int16_t)`. -/

/-- The queued `_avatarSound`'s byte array (each entry one byte, 0–255). -/
structure SoundBuffer where
  bytes : List Int
  deriving DecidableEq, Repr

/-- The signed 16-bit sample assembled from two little-endian bytes, as read
through `reinterpret_cast<const int16_t*>`. -/
def int16FromBytes (lo hi : Int) : Int :=
  let u := lo + 256 * hi
  if u ≥ 32768 then u - 65536 else u

/-- Sample `i` of the sound byte array starting at byte offset `sentBytes`
(`nextSoundOutput[i]`). -/
def sampleAt (bytes : List Int) (sentBytes : Nat) (i : Nat) : Int :=
  int16FromBytes (bytes.getD (sentBytes + 2 * i) 0) (bytes.getD (sentBytes + 2 * i + 1) 0)

/-- The silence scan: `silentFrame` stays true iff every one of the
`numAvailableSamples` samples about to be sent is zero. -/
def frameIsSilent (bytes : List Int) (sentBytes : Nat) (numAvailableSamples : Nat) : Bool :=
  (List.range numAvailableSamples).all (fun i => sampleAt bytes sentBytes i == 0)

/-- The audio packet body written after the 16-bit sequence placeholder:
either the silent-frame form (sample count, then source position and
orientation) or the voiced form (channel flag, source position and
orientation, then the raw samples). Position and orientation are opaque
floating-point payload and are not modelled. -/
inductive AudioPacketBody where
  | silentForm (sampleCount : Int)
  | voicedForm (channelFlag : Nat) (numSamples : Int)
  deriving DecidableEq, Repr

/-- What the iteration does next after the audio section: fall through to the
rest of the loop body, or execute the `break` statement — which exits the
`while (!_isFinished)` loop entirely, so `run()` proceeds to its teardown and
the host finishes. -/
inductive LoopControl where
  | nextIteration
  | breakOutOfRunLoop
  deriving DecidableEq, Repr

/-- The audio-relevant engine state read and written by one iteration. -/
structure AudioFrameState where
  isListeningToAudioStream : Bool
  avatarSound : Option SoundBuffer
  numAvatarSoundSentBytes : Int
  deriving DecidableEq, Repr

/-- The audio section's effect for one frame. -/
structure AudioFrameResult where
  /-- The audio packet handed to the audio-mixer send loop (`none` when no
  audio packet is sent this frame). -/
  audioPacket : Option AudioPacketBody
  avatarSound : Option SoundBuffer
  numAvatarSoundSentBytes : Int
  /-- `numAvailableBytes` consumed from the sound buffer this frame (0 when
  no buffer was queued). -/
  bytesConsumed : Int
  control : LoopControl
  deriving DecidableEq, Repr

/-- The avatar audio section of one `run()` loop iteration (lines 503–589),
parametrised on `SCRIPT_AUDIO_BUFFER_SAMPLES`:

- entered only when `_isListeningToAudioStream || _avatarSound`;
- when a sound is queued, pulls `numAvailableBytes = min(remaining bytes,
  SCRIPT_AUDIO_BUFFER_BYTES)`, scans those samples for silence, advances
  `_numAvatarSoundSentBytes`, and releases the buffer (resetting the cursor
  to 0) exactly when the cursor reaches the byte array's size;
- with a silent frame and not listening: sends nothing and executes `break`
  (which leaves the whole `while (!_isFinished)` loop);
- with a silent frame while listening: sends the silent form carrying the
  full `SCRIPT_AUDIO_BUFFER_SAMPLES` budget;
- otherwise (`nextSoundOutput` non-null): sends the voiced form carrying the
  `numAvailableSamples` pulled samples. -/
def audioFrameSection (bufSamples : Nat) (st : AudioFrameState) : AudioFrameResult :=
  let SCRIPT_AUDIO_BUFFER_BYTES : Int := (bufSamples : Int) * 2
  if st.isListeningToAudioStream || st.avatarSound.isSome then
    match st.avatarSound with
    | some sound =>
      let size : Int := sound.bytes.length
      let numAvailableBytes : Int :=
        if size - st.numAvatarSoundSentBytes > SCRIPT_AUDIO_BUFFER_BYTES
        then SCRIPT_AUDIO_BUFFER_BYTES
        else size - st.numAvatarSoundSentBytes
      let numAvailableSamples : Int := numAvailableBytes / 2
      let silentFrame :=
        frameIsSilent sound.bytes st.numAvatarSoundSentBytes.toNat numAvailableSamples.toNat
      let sent2 := st.numAvatarSoundSentBytes + numAvailableBytes
      { audioPacket :=
          if silentFrame then
            if !st.isListeningToAudioStream then none
            else some (AudioPacketBody.silentForm (bufSamples : Int))
          else some (AudioPacketBody.voicedForm 0 numAvailableSamples),
        avatarSound := if sent2 = size then none else some sound,
        numAvatarSoundSentBytes := if sent2 = size then 0 else sent2,
        bytesConsumed := numAvailableBytes,
        control :=
          if silentFrame && !st.isListeningToAudioStream then LoopControl.breakOutOfRunLoop
          else LoopControl.nextIteration }
    | none =>
      -- no sound queued: silentFrame remains true and nextSoundOutput is NULL
      { audioPacket :=
          if !st.isListeningToAudioStream then none
          else some (AudioPacketBody.silentForm (bufSamples : Int)),
        avatarSound := none,
        numAvatarSoundSentBytes := st.numAvatarSoundSentBytes,
        bytesConsumed := 0,
        control :=
          if !st.isListeningToAudioStream then LoopControl.breakOutOfRunLoop
          else LoopControl.nextIteration }
  else
    { audioPacket := none,
      avatarSound := st.avatarSound,
      numAvatarSoundSentBytes := st.numAvatarSoundSentBytes,
      bytesConsumed := 0,
      control := LoopControl.nextIteration }

/-- Whether the run loop goes on to its next iteration after the audio
section, rather than leaving the `while (!_isFinished)` loop. -/
def loopProceedsToNextIteration (r : AudioFrameResult) : Bool :=
  match r.control with
  | LoopControl.nextIteration => true
  | LoopControl.breakOutOfRunLoop => false

/-! ## Host teardown and the registry's stop-all sweep

`ScriptEngine::stopAllScripts` (lines 119–168) takes `_allScriptsMutex`, sets
`_stoppingAllScripts`, and for every registered engine that `isRunning()`:
drains in-flight evaluations (blocking on `evaluationFinished` until
`evaluatePending()` is false), disconnects it from the application, calls
`stop()`, calls `waitTillDoneRunning()`, and removes it from the set.
Engines that are not running are skipped and stay in the set.

`waitTillDoneRunning` (lines 171–189) resets the `_doneRunningThisScript`
latch and spins (processing the caller's events) until the latch is set.
`run()`'s exit sequence (lines 609–637) performs, in order: `stopAllTimers()`,
emits `scriptEnding`, deletes the identity timer, flushes entity edits, quits
its thread, emits `finished`, sets `_isRunning = false`, emits
`runningStateChanged` and `doneRunning`, and only then sets
`_doneRunningThisScript = true` — so the latch is observably set only after
the host has stopped running. -/

/-- The per-host state the shutdown sweep reads and writes. -/
structure ScriptHost where
  hostId : Nat
  isRunning : Bool
  isFinished : Bool
  /-- `_evaluatesPending` (what `evaluatePending()` reports as `> 0`). -/
  evaluatesPending : Int
  /-- `_doneRunningThisScript` as observed while this host is being stopped
  (the static latch is serialized: one host is waited on at a time). -/
  doneRunningLatch : Bool
  timerFunctionMap : TimerFunctionMap
  deriving DecidableEq, Repr

/-- The successive states of `run()`'s exit sequence, one entry per
modelled mutation, in program order: `stopAllTimers()` empties the timer map;
`_isRunning = false`; `_doneRunningThisScript = true` last of all. -/
def runExitSequence (h : ScriptHost) : List ScriptHost :=
  let h1 := { h with timerFunctionMap := [] }
  let h2 := { h1 with isRunning := false }
  let h3 := { h2 with doneRunningLatch := true }
  [h1, h2, h3]

/-- The state of a host once its run loop has fully exited (the last state of
the exit sequence). -/
def runExitFinalState (h : ScriptHost) : ScriptHost :=
  (runExitSequence h).getLastD h

/-- The sweep's first wait: block on `evaluationFinished` until
`evaluatePending()` reports no in-flight evaluation (each pending `evaluate`
completes, returning the counter to 0 — see `runEvaluate`). -/
def drainPendingEvaluations (h : ScriptHost) : ScriptHost :=
  if h.evaluatesPending > 0 then { h with evaluatesPending := 0 } else h

/-- `ScriptEngine::stop()`: set `_isFinished` and notify listeners. -/
def stop (h : ScriptHost) : ScriptHost :=
  { h with isFinished := true }

/-- `ScriptEngine::waitTillDoneRunning()`: nothing to do when the host is not
running; otherwise reset the `_doneRunningThisScript` latch and block until
it is set — i.e. return at the first exit-sequence state whose latch is true
(the host's cooperative loop, seeing `_isFinished`, runs its exit sequence
meanwhile). -/
def waitTillDoneRunning (h : ScriptHost) : ScriptHost :=
  if h.isRunning then
    let trace := runExitSequence { h with doneRunningLatch := false }
    (trace.find? (fun s => s.doneRunningLatch)).getD (trace.getLastD h)
  else h

/-- The full treatment one running host receives from the sweep: drain
evaluations, (disconnect from the application,) `stop()`, wait till the run
loop has fully exited. -/
def stopOneHost (h : ScriptHost) : ScriptHost :=
  waitTillDoneRunning (stop (drainPendingEvaluations h))

/-- `ScriptEngine::stopAllScripts`' sweep over the registered set, in
iteration order. Returns the registry contents at release of the lock and
the final states of the hosts that were stopped and removed. -/
def stopAllScriptsSweep : List ScriptHost → List ScriptHost × List ScriptHost
  | [] => ([], [])
  | h :: rest =>
    let r := stopAllScriptsSweep rest
    if h.isRunning then
      (r.1, stopOneHost h :: r.2)
    else
      (h :: r.1, r.2)

/-! ## Helper lemmas -/

/-- Removing a key from the timer map makes `contains` false for it. -/
theorem tmContains_tmRemove (m : TimerFunctionMap) (t : Nat) :
    tmContains (tmRemove m t) t = false := by
  simp [tmRemove, tmContains, List.find?_filter]

/-- After removal, `QHash::value` returns the default-constructed (invalid)
`QScriptValue` for the removed key. -/
theorem tmValue_tmRemove (m : TimerFunctionMap) (t : Nat) :
    tmValue (tmRemove m t) t = QScriptValueM.invalidValue := by
  induction m with
  | nil => rfl
  | cons e rest ih =>
    by_cases he : e.1 = t
    · simpa [tmRemove, tmValue, List.filter_cons, he] using ih
    · simpa [tmRemove, tmValue, List.filter_cons, List.find?_cons, he] using ih

/-- Lookup after insert finds the inserted counter. -/
theorem seqFind_seqInsert (m : SequenceNumberMap) (u v : Nat) :
    seqFind (seqInsert m u v) u = some v := by
  simp [seqFind, seqInsert, List.find?_cons]

/-- Lookup after `nodeKilled` finds nothing for the killed node. -/
theorem seqFind_nodeKilled (m : SequenceNumberMap) (u : Nat) :
    seqFind (nodeKilled m u) u = none := by
  induction m with
  | nil => rfl
  | cons e rest ih =>
    by_cases he : e.1 = u
    · simpa [nodeKilled, seqFind, List.filter_cons, he] using ih
    · simpa [nodeKilled, seqFind, List.filter_cons, List.find?_cons, he] using ih

mutual

/-- Every completed `evaluate` call returns `_evaluatesPending` to its value
at entry (`++` before the interpreter step, `--` after; the bail path touches
nothing). -/
theorem runEvaluate_preserves : ∀ (c : EvalCall) (p : Int), (runEvaluate c p).1 = p
  | .node s e children, p => by
    unfold runEvaluate
    by_cases hs : s
    · simp [hs]
    · simp [hs, runEvaluateList_preserves children (p + 1)]

/-- Counter preservation for a sequence of reentrant calls. -/
theorem runEvaluateList_preserves : ∀ (cs : List EvalCall) (p : Int), (runEvaluateList cs p).1 = p
  | [], p => by simp [runEvaluateList]
  | c :: cs, p => by
    simp only [runEvaluateList]
    rw [runEvaluate_preserves c p]
    exact runEvaluateList_preserves cs p

end

mutual

/-- The counter never drops below its entry value during a call. -/
theorem minPending_eq : ∀ (c : EvalCall) (p : Int), minPending c p = p
  | .node s e children, p => by
    unfold minPending
    by_cases hs : s
    · simp [hs]
    · have h1 := minPendingList_eq children (p + 1)
      simp [hs, h1]

/-- The counter never drops below its entry value across a call sequence. -/
theorem minPendingList_eq : ∀ (cs : List EvalCall) (p : Int), minPendingList cs p = p
  | [], p => by simp [minPendingList]
  | c :: cs, p => by
    unfold minPendingList
    rw [minPending_eq c p, runEvaluate_preserves c p, minPendingList_eq cs p]
    simp

end

/-- A host that was running, once drained, stopped and waited on, is no
longer running at the moment the done-running latch is observed. -/
theorem stopOneHost_final_state (h : ScriptHost) (hr : h.isRunning = true) :
    (stopOneHost h).isRunning = false ∧ (stopOneHost h).doneRunningLatch = true := by
  unfold stopOneHost waitTillDoneRunning stop drainPendingEvaluations runExitSequence
  by_cases hp : h.evaluatesPending > 0 <;> simp [hp, hr, List.find?]

/-- The registry contents after the sweep are exactly the hosts that were not
running, in order and untouched. -/
theorem stopAllScriptsSweep_fst_eq_filter (hosts : List ScriptHost) :
    (stopAllScriptsSweep hosts).1 = hosts.filter (fun h => !h.isRunning) := by
  induction hosts with
  | nil => rfl
  | cons h rest ih =>
    by_cases hr : h.isRunning <;>
      simp [stopAllScriptsSweep, List.filter_cons, hr, ih]

/-- Every host the sweep stopped came from a running registry entry and is in
its fully-stopped final state. -/
theorem stopAllScriptsSweep_snd_mem (hosts : List ScriptHost) (h : ScriptHost)
    (hmem : h ∈ (stopAllScriptsSweep hosts).2) :
    ∃ x ∈ hosts, x.isRunning = true ∧ h = stopOneHost x := by
  induction hosts with
  | nil => simp [stopAllScriptsSweep] at hmem
  | cons x rest ih =>
    simp only [stopAllScriptsSweep] at hmem
    by_cases hr : x.isRunning
    · rw [if_pos hr] at hmem
      rcases List.mem_cons.mp hmem with heq | hmem2
      · exact ⟨x, List.mem_cons_self x rest, hr, heq⟩
      · rcases ih hmem2 with ⟨y, hy, hyr, hyeq⟩
        exact ⟨y, List.mem_cons_of_mem x hy, hyr, hyeq⟩
    · rw [if_neg hr] at hmem
      rcases ih hmem with ⟨y, hy, hyr, hyeq⟩
      exact ⟨y, List.mem_cons_of_mem x hy, hyr, hyeq⟩

/-! ## Claims -/

/-- C1 (silent-frame suppression, code bug): on a frame whose pulled samples
are all zero while the host is not listening to the input audio stream, no
audio packet is sent — but the `break` at the suppression site leaves the
whole `while (!_isFinished)` loop rather than only the audio section, so
`run()` proceeds to its teardown and the host finishes instead of continuing
to the next iteration. Evaluated here at a concrete failing input: one
pending zero sample (bytes `[0, 0]`, cursor 0, budget 1 sample/frame), not
listening. -/
theorem silent_frame_suppression_exits_run_loop :
    (audioFrameSection 1
        (AudioFrameState.mk false (some (SoundBuffer.mk [0, 0])) 0)).audioPacket = none ∧
    loopProceedsToNextIteration
      (audioFrameSection 1
        (AudioFrameState.mk false (some (SoundBuffer.mk [0, 0])) 0)) = false := by
  decide

/-- C2: every completed `evaluate` call — reentrant calls included — returns
`_evaluatesPending` to exactly its value at entry (so an outermost call
starting at 0 returns it to 0), and the counter never drops below its entry
value at any point during the call (so it never goes negative). -/
theorem evaluatesPending_balanced (c : EvalCall) (p : Int) :
    (runEvaluate c p).1 = p ∧ minPending c p = p :=
  ⟨runEvaluate_preserves c p, minPending_eq c p⟩

/-- C3: `stopAllScripts` never returns while a tracked host reports
`isRunning()`: every host left in the registry is not running; every host
that was running when the sweep reached it was waited on until its run loop
fully exited (not running, done-running latch set) and was removed; and in
`run()`'s exit sequence the `_doneRunningThisScript` latch — the condition
`waitTillDoneRunning` blocks on — is observably set only in states where
`_isRunning` is already false. -/
theorem stopAllScripts_stops_every_running_host (hosts : List ScriptHost) :
    (∀ h ∈ (stopAllScriptsSweep hosts).1, h.isRunning = false) ∧
    (∀ h ∈ (stopAllScriptsSweep hosts).2, h.isRunning = false ∧ h.doneRunningLatch = true) ∧
    (∀ h : ScriptHost, ∀ s ∈ runExitSequence { h with doneRunningLatch := false },
        s.doneRunningLatch = true → s.isRunning = false) := by
  refine ⟨?_, ?_, ?_⟩
  · intro h hmem
    rw [stopAllScriptsSweep_fst_eq_filter] at hmem
    have := (List.mem_filter.mp hmem).2
    simpa using this
  · intro h hmem
    rcases stopAllScriptsSweep_snd_mem hosts h hmem with ⟨x, _, hxr, rfl⟩
    exact stopOneHost_final_state x hxr
  · intro h s hmem
    simp only [runExitSequence, List.mem_cons, List.not_mem_nil, or_false] at hmem
    rcases hmem with rfl | rfl | rfl <;> simp

/-- A concrete running host with two in-flight evaluations. -/
def witnessRunningHost : ScriptHost :=
  ScriptHost.mk 1 true false 2 false []

/-- Witness for C3 at a one-host registry. -/
theorem stopAllScripts_stops_witness :
    (stopOneHost witnessRunningHost).isRunning = false ∧
    (stopOneHost witnessRunningHost).doneRunningLatch = true :=
  (stopAllScripts_stops_every_running_host [witnessRunningHost]).2.1
    (stopOneHost witnessRunningHost) (by decide)

/-- C4, counterexample to the claim as stated: a call that enters while
`_stoppingAllScripts` is set completes (returns an empty result, counter
untouched) yet emits no signal at all — in particular no
`evaluationFinished` — because the bail path returns before the emit. -/
theorem evaluate_bail_emits_no_signal :
    runEvaluate (EvalCall.node true false []) 0 = (0, []) := by decide

/-- C4 as amended: every `evaluate` call that passes the stop-all check
signals `evaluationFinished` (carrying the uncaught-exception flag) as the
last thing it emits before returning. -/
theorem evaluate_emits_finished_last (children : List EvalCall) (hadErr : Bool) (p : Int) :
    (runEvaluate (EvalCall.node false hadErr children) p).2.getLast? =
      some (EvalEvent.evaluationFinished hadErr) := by
  unfold runEvaluate
  simp

/-- C5: when a single-shot timer fires (its `QTimer` has auto-stopped, so
`isActive()` is false inside `timerFired`), the timer is removed from
`_timerFunctionMap` strictly before the callback runs — the map state at
invocation no longer contains it — the callback invoked is the one that was
stored, and a second fire of the same handle invokes nothing, so the
callback runs at most once over the timer's lifetime. -/
theorem singleShot_timerFired_spec (m : TimerFunctionMap) (t : QTimerM)
    ( _hsingle : t.singleShot = true) (hfired : t.timerActive = false) :
    tmContains (timerFired m t).1 t.id = false ∧
    (timerFired m t).2 = (if (tmValue m t.id).valid then some (tmValue m t.id) else none) ∧
    (timerFired (timerFired m t).1 t).2 = none := by
  refine ⟨?_, rfl, ?_⟩
  · simp [timerFired, hfired, tmContains_tmRemove]
  · simp [timerFired, hfired, tmValue_tmRemove, QScriptValueM.invalidValue]

/-- Witness for C5: a single-shot timer with a valid stored callback. -/
theorem singleShot_timerFired_witness :
    tmContains (timerFired [(1, QScriptValueM.mk true 7)] (QTimerM.mk 1 true false)).1 1 = false ∧
    (timerFired [(1, QScriptValueM.mk true 7)] (QTimerM.mk 1 true false)).2 =
      (if (tmValue [(1, QScriptValueM.mk true 7)] 1).valid
       then some (tmValue [(1, QScriptValueM.mk true 7)] 1) else none) ∧
    (timerFired (timerFired [(1, QScriptValueM.mk true 7)] (QTimerM.mk 1 true false)).1
      (QTimerM.mk 1 true false)).2 = none :=
  singleShot_timerFired_spec [(1, QScriptValueM.mk true 7)] (QTimerM.mk 1 true false) rfl rfl

/-- C6: the per-destination audio sequence counter starts at 0 on the first
packet to a fresh peer, each consecutive packet to a peer carries the
previous value plus one modulo 2^16, `nodeKilled` removes the peer's entry,
and a packet to a removed (reappearing) peer restarts at 0. -/
theorem audio_sequence_numbers_spec (m : SequenceNumberMap) (u : Nat)
    (hfresh : seqFind m u = none) :
    (packSequenceNumber m u).1 = 0 ∧
    (∀ m2 : SequenceNumberMap,
        (packSequenceNumber (packSequenceNumber m2 u).2 u).1 =
          ((packSequenceNumber m2 u).1 + 1) % 65536) ∧
    (∀ m2 : SequenceNumberMap, seqFind (nodeKilled m2 u) u = none) ∧
    (∀ m2 : SequenceNumberMap, (packSequenceNumber (nodeKilled m2 u) u).1 = 0) := by
  refine ⟨by simp [packSequenceNumber, hfresh], fun m2 => ?_,
          fun m2 => seqFind_nodeKilled m2 u,
          fun m2 => by simp [packSequenceNumber, seqFind_nodeKilled]⟩
  simp [packSequenceNumber, seqFind_seqInsert]

/-- Witness for C6 at a fresh peer 5 and a peer with counter 3. -/
theorem audio_sequence_numbers_witness :
    seqFind [] 5 = none ∧
    (packSequenceNumber [] 5).1 = 0 ∧
    (packSequenceNumber (packSequenceNumber [(5, 3)] 5).2 5).1 =
      ((packSequenceNumber [(5, 3)] 5).1 + 1) % 65536 ∧
    seqFind (nodeKilled [(5, 3)] 5) 5 = none ∧
    (packSequenceNumber (nodeKilled [(5, 3)] 5) 5).1 = 0 :=
  ⟨rfl, (audio_sequence_numbers_spec [] 5 rfl).1,
   (audio_sequence_numbers_spec [] 5 rfl).2.1 [(5, 3)],
   (audio_sequence_numbers_spec [] 5 rfl).2.2.1 [(5, 3)],
   (audio_sequence_numbers_spec [] 5 rfl).2.2.2 [(5, 3)]⟩

/-- C7: while `_stoppingAllScripts` is set, `setInterval` and `setTimeout`
return no handle and leave the engine's timer state (the timer map included)
entirely unchanged. -/
theorem timers_rejected_while_stoppingAll (st : EngineTimers) (f : QScriptValueM) (ms : Int) :
    setInterval true st f ms = (st, none) ∧ setTimeout true st f ms = (st, none) :=
  ⟨rfl, rfl⟩

/-- C8: with a queued sound buffer and a cursor within bounds, one frame
consumes at most `SCRIPT_AUDIO_BUFFER_BYTES = bufSamples * 2` bytes, the
cursor never passes the buffer's length, and the buffer is released with the
cursor reset to zero exactly when the cursor reaches the length (otherwise
the same buffer stays queued with the cursor advanced by the bytes
consumed). -/
theorem soundBuffer_cursor_spec (bufSamples : Nat) (listening : Bool)
    (sound : SoundBuffer) (sent : Int)
    ( _h0 : 0 ≤ sent) (hle : sent ≤ (sound.bytes.length : Int)) :
    let r := audioFrameSection bufSamples (AudioFrameState.mk listening (some sound) sent)
    0 ≤ r.bytesConsumed ∧
    r.bytesConsumed ≤ (bufSamples : Int) * 2 ∧
    sent + r.bytesConsumed ≤ (sound.bytes.length : Int) ∧
    (r.avatarSound = none ↔ sent + r.bytesConsumed = (sound.bytes.length : Int)) ∧
    (r.avatarSound = none → r.numAvatarSoundSentBytes = 0) ∧
    (r.avatarSound ≠ none →
      r.avatarSound = some sound ∧ r.numAvatarSoundSentBytes = sent + r.bytesConsumed) := by
  simp only [audioFrameSection, Option.isSome_some, Bool.or_true, if_true]
  split_ifs with hgt heq <;>
    refine ⟨?_, ?_, ?_, ?_, ?_, ?_⟩ <;>
    simp_all <;>
    omega

/-- Witness for C8: a four-byte voiced buffer, cursor 0, one-sample budget. -/
theorem soundBuffer_cursor_witness :
    (0 : Int) ≤ 0 ∧
    (0 : Int) ≤ ((SoundBuffer.mk [1, 0, 0, 0]).bytes.length : Int) ∧
    (let r := audioFrameSection 1 (AudioFrameState.mk true (some (SoundBuffer.mk [1, 0, 0, 0])) 0)
     0 ≤ r.bytesConsumed ∧
     r.bytesConsumed ≤ ((1 : Nat) : Int) * 2 ∧
     0 + r.bytesConsumed ≤ ((SoundBuffer.mk [1, 0, 0, 0]).bytes.length : Int) ∧
     (r.avatarSound = none ↔
        0 + r.bytesConsumed = ((SoundBuffer.mk [1, 0, 0, 0]).bytes.length : Int)) ∧
     (r.avatarSound = none → r.numAvatarSoundSentBytes = 0) ∧
     (r.avatarSound ≠ none →
        r.avatarSound = some (SoundBuffer.mk [1, 0, 0, 0]) ∧
        r.numAvatarSoundSentBytes = 0 + r.bytesConsumed)) :=
  ⟨le_refl 0, by decide,
   soundBuffer_cursor_spec 1 true (SoundBuffer.mk [1, 0, 0, 0]) 0 (by decide) (by decide)⟩

/-- C9: the stop-all sweep leaves every host that was not running untouched —
the registry after the sweep is exactly the non-running hosts, in their
original order and original states (none stopped, none waited on, none
removed). -/
theorem sweep_skips_non_running_hosts (hosts : List ScriptHost) :
    (stopAllScriptsSweep hosts).1 = hosts.filter (fun h => !h.isRunning) :=
  stopAllScriptsSweep_fst_eq_filter hosts

/-- C10: `stopTimer` on a handle absent from `_timerFunctionMap` is a no-op:
the whole engine timer state is returned unchanged (so clearing the same
handle twice is safe). -/
theorem stopTimer_missing_handle_noop (st : EngineTimers) (timer : Nat)
    (habsent : tmContains st.timerFunctionMap timer = false) :
    stopTimer st timer = st := by
  simp [stopTimer, habsent]

/-- Witness for C10: clearing handle 4 on an empty timer map. -/
theorem stopTimer_missing_handle_witness :
    tmContains (EngineTimers.mk [] 0).timerFunctionMap 4 = false ∧
    stopTimer (EngineTimers.mk [] 0) 4 = EngineTimers.mk [] 0 :=
  ⟨rfl, stopTimer_missing_handle_noop (EngineTimers.mk [] 0) 4 rfl⟩

end ScriptEngineModel
